import Mathlib

/-!
Verification of the grid-based spatial query engine:
an A* pathfinder (`src/docs/js/pathfinding.js`) and a ray-marching /
collision-probe module (`src/docs/js/map.js`) over a static 12x12
occupancy grid.

The JavaScript is embedded shallowly:

* Grid cells are integers; world coordinates are rationals (`findPath`,
  `checkWallCollision`) or reals (`castRay`, which takes trigonometric
  input).  JavaScript numbers are IEEE doubles; all doubles that reach
  the rational code paths are rationals, so `ℚ` is a faithful domain
  there, and the real-valued ray marcher is modelled over `ℝ` with exact
  arithmetic.
* A* path costs are sums of the two step costs `STRAIGHT = 1` and
  `DIAGONAL = Math.SQRT2`; every value that arises is `a + b·√2` with
  integer `a`, `b`, modelled exactly by the computable type `Q2` below
  (the lemmas `Q2.leB_iff` / `Q2.ltB_iff` prove the encoded order is
  the real-number order used by the JavaScript comparisons).
* String keys `key(x, y) = "x,y"` are injective on integer pairs and
  `unkey` is their inverse, so keys are modelled as the pair itself.
* JavaScript objects used as key-value maps are modelled as functions
  `Key → Option _` (reads in the source always go through
  `get(obj, k, dflt)`); the object used as a set (`closed`) is a
  `Finset Key`.
* Thrown JavaScript exceptions are modelled with `Except JsError`.
* `GAME_CONFIG` lives in `src/docs/js/utils.js`, which is not among the
  sources here.  Modelled from the spec: section 4.4 lists the
  configuration with defaults `STRAIGHT_COST = 1`,
  `DIAGONAL_COST = √2`, `MAX_PATH_LENGTH = unbounded`, and a
  `TILE_SIZE` used only for snapping.  The two step costs are fixed at
  their defaults; `MAX_PATH_LENGTH` (`maxLen : Option Q2`, `none` =
  `Infinity`) and `TILE_SIZE` (`ts : ℚ`) are kept as parameters.

A load-bearing fact about the source, used throughout: Ramda's
`R.reduce` calls its iterator with exactly two arguments
`(acc, value)` — unlike `Array.prototype.reduce`, it never passes the
element index (that is what `R.addIndex` exists for).  Consequently in
`pickBestIndex` (pathfinding.js lines 157-163) the parameter `i` is
always `undefined`:

* on the first element, `best === null` short-circuits the `||` and the
  callback returns `i`, i.e. `undefined`;
* on any later element, `best` is `undefined`, `best === null` is
  `false`, and evaluating `n.f < open[best].f` reads property `f` of
  `open[undefined]`, which is `undefined` — a TypeError is thrown.

So `pickBestIndex` returns `null` on an empty list, `undefined` on a
one-element list, and throws on longer lists; `step` (line 87 checks
`idx === null` with strict equality, which `undefined` fails) then
evaluates `open[idx].x` on a one-element list and throws as well.  The
code after line 90 of `step` is unreachable for every input and is not
modelled.  (With Ramda ≥ 0.29 the argument order of `R.propEq` at line
21 is flipped, the `"ok"` stage falls through to `finalize` with
`undefined` fields and the TypeError happens there instead; either way
every search between two distinct walkable cells throws.)
-/

/-! ### The grid (`map.js` lines 1-26, `pathfinding.js` lines 233-239) -/

/-- The static occupancy map, `MAP` from `map.js` (0 = walkable, 1 = wall). -/
def MAP : List (List ℕ) :=
  [[1, 1, 1, 1, 1, 1, 1, 1, 1, 1, 1, 1],
   [1, 1, 0, 0, 0, 1, 1, 0, 0, 0, 1, 1],
   [1, 0, 0, 0, 0, 0, 0, 0, 0, 0, 0, 1],
   [1, 0, 0, 0, 0, 0, 0, 0, 0, 0, 0, 1],
   [1, 0, 0, 0, 0, 1, 1, 0, 0, 0, 0, 1],
   [1, 1, 0, 0, 1, 1, 1, 1, 0, 0, 1, 1],
   [1, 1, 0, 0, 1, 1, 1, 1, 0, 0, 1, 1],
   [1, 0, 0, 0, 0, 1, 1, 0, 0, 0, 0, 1],
   [1, 0, 0, 0, 0, 0, 0, 0, 0, 0, 0, 1],
   [1, 0, 0, 0, 0, 0, 0, 0, 0, 0, 0, 1],
   [1, 1, 0, 0, 0, 1, 1, 0, 0, 0, 1, 1],
   [1, 1, 1, 1, 1, 1, 1, 1, 1, 1, 1, 1]]

/-- `MAP.length` (`MAP_HEIGHT` in `map.js`). -/
def MAP_HEIGHT : ℤ := MAP.length

/-- `MAP[0].length` (`MAP_WIDTH` in `map.js`). -/
def MAP_WIDTH : ℤ := (MAP.getD 0 []).length

/-- Reading `MAP[y][x]`.  Every read site in the source is guarded by a
bounds check, so the out-of-range default is never observed. -/
def mapAt (x y : ℤ) : ℕ := (MAP.getD y.toNat []).getD x.toNat 1

/-- `inBounds` from `pathfinding.js` lines 233-235. -/
def inBounds (x y : ℤ) : Bool :=
  decide (0 ≤ y) && decide (y < MAP_HEIGHT) && decide (0 ≤ x) && decide (x < MAP_WIDTH)

/-- `walkable` from `pathfinding.js` lines 237-239 (0 = walkable). -/
def walkable (x y : ℤ) : Bool :=
  inBounds x y && decide (mapAt x y = 0)

/-- `isWallAt` from `map.js` lines 21-26 (1 = wall, out of bounds is NOT
a wall for this probe). -/
def isWallAt (gridX gridY : ℤ) : Bool :=
  decide (0 ≤ gridY) && decide (gridY < MAP_HEIGHT) &&
  decide (0 ≤ gridX) && decide (gridX < MAP_WIDTH) &&
  decide (mapAt gridX gridY = 1)

/-! ### Exact cost arithmetic `a + b·√2` -/

/-- A path-cost value `a + b·√2` (`a`,`b` integers): the exact value of
every number the A* search compares, since all costs are sums of
`STRAIGHT = 1` and `DIAGONAL = √2`. -/
structure Q2 where
  a : ℤ
  b : ℤ
deriving DecidableEq

/-- `0 ≤ a + b·√2`, decided by integer arithmetic.
`Q2.nonnegB_iff` proves this agrees with the real-number order. -/
def Q2.nonnegB (x : Q2) : Bool :=
  (decide (0 ≤ x.b) && (decide (0 ≤ x.a) || decide (x.a ^ 2 ≤ 2 * x.b ^ 2))) ||
  (decide (x.b < 0) && decide (0 ≤ x.a) && decide (2 * x.b ^ 2 ≤ x.a ^ 2))

/-- The JavaScript comparison `u <= v` on exact cost values. -/
def Q2.leB (u v : Q2) : Bool := Q2.nonnegB ⟨v.a - u.a, v.b - u.b⟩

/-- The JavaScript comparison `u < v` on exact cost values. -/
def Q2.ltB (u v : Q2) : Bool := !Q2.leB v u

/-- The real number a `Q2` denotes. -/
noncomputable def Q2.toReal (x : Q2) : ℝ := (x.a : ℝ) + (x.b : ℝ) * Real.sqrt 2

/-- Component-wise addition: `(a₁+b₁√2) + (a₂+b₂√2)`. -/
def Q2.add (u v : Q2) : Q2 := ⟨u.a + v.a, u.b + v.b⟩

/-- Multiplication by an integer scalar. -/
def Q2.intMul (n : ℤ) (u : Q2) : Q2 := ⟨n * u.a, n * u.b⟩

/-- A JavaScript number that may be `Infinity` (`none`): the type of
`get(gScore, k, Infinity)` reads and of `MAX_LEN`. -/
abbrev OptCost := Option Q2

/-- JavaScript `u < v` where either side may be `Infinity`. -/
def qaltB : OptCost → OptCost → Bool
  | some u, some v => Q2.ltB u v
  | some _, none => true
  | none, _ => false

/-- JavaScript `u <= v` where either side may be `Infinity`. -/
def qaleB : OptCost → OptCost → Bool
  | some u, some v => Q2.leB u v
  | none, some _ => false
  | _, none => true

/-! ### A* pathfinder data (`pathfinding.js`) -/

/-- Modelled from the spec: `STRAIGHT = PF.STRAIGHT_COST ?? 1`
(pathfinding.js line 9); the configured value lives in `utils.js`
(absent from these sources), whose spec default is 1. -/
def STRAIGHT : Q2 := ⟨1, 0⟩

/-- Modelled from the spec: `DIAGONAL = PF.DIAGONAL_COST ?? Math.SQRT2`
(pathfinding.js line 11); spec default `√2`, represented exactly. -/
def DIAGONAL : Q2 := ⟨0, 1⟩

/-- Grid keys.  The source uses the string `"x,y"`; `key` is injective
on integer pairs and `unkey` is its inverse, so the pair itself is
used. -/
abbrev Key := ℤ × ℤ

/-- An entry of the open list: `{x, y, f}` (pathfinding.js line 55). -/
structure Node where
  x : ℤ
  y : ℤ
  f : Q2
deriving DecidableEq

/-- The snapped endpoints (`{sx, sy, gx, gy}`, pathfinding.js lines
29-34). -/
structure Ctx where
  sx : ℤ
  sy : ℤ
  gx : ℤ
  gy : ℤ
deriving DecidableEq

/-- The search state threaded through `step` (pathfinding.js lines
54-61): open list, score maps, parent map, closed set, current key. -/
structure AState where
  openList : List Node
  gScore : Key → OptCost
  fScore : Key → OptCost
  parents : Key → Option Key
  closed : Finset Key
  currentK : Option Key

/-- The intermediate pipeline stages of `findPath`
(`{kind: "invalid"}`, `{kind: "done", path}`, `{kind: "ok", ctx}`,
`{kind: "ran", startK, goalK, endState}`). -/
inductive Stage where
  | invalid
  | done (path : List Key)
  | okst (ctx : Ctx)
  | ran (startK goalK : Key) (endState : AState)

/-- The JavaScript exceptions the code can throw. -/
inductive JsError where
  /-- TypeError reading `.f` of `open[undefined]` inside the reduce
  callback of `pickBestIndex` (open list length ≥ 2). -/
  | typeErrorReduceF
  /-- TypeError reading `.x` of `open[undefined]` at `key(current.x,
  current.y)` in `step` (open list length 1). -/
  | typeErrorCurrentX
  /-- TypeError reading `.currentK` of `undefined`: `finalize` applied
  to a stage with no `endState` (unreachable `"ok"` fallthrough). -/
  | typeErrorStage
  /-- RangeError: unbounded recursion of `build` on a malformed parent
  chain (stack overflow). -/
  | rangeErrorStack
  /-- Marker for exhaustion of the loop fuel of the `R.until` model;
  `run_resolves` proves it is never reached. -/
  | outOfFuel
deriving DecidableEq

/-- The octile heuristic `H` (pathfinding.js lines 242-248):
`DIAGONAL * min(dx, dy) + STRAIGHT * (max(dx, dy) - min(dx, dy))`. -/
def H (x1 y1 x2 y2 : ℤ) : Q2 :=
  Q2.add (Q2.intMul (min |x1 - x2| |y1 - y2|) DIAGONAL)
    (Q2.intMul (max |x1 - x2| |y1 - y2| - min |x1 - x2| |y1 - y2|) STRAIGHT)

/-- The direction table built inside `neighbors8` (pathfinding.js lines
254-263): four orthogonal steps at cost `STRAIGHT`, four diagonal steps
at cost `DIAGONAL`. -/
def DIRS : List (ℤ × ℤ × Q2) :=
  [(1, 0, STRAIGHT), (-1, 0, STRAIGHT), (0, 1, STRAIGHT), (0, -1, STRAIGHT),
   (1, 1, DIAGONAL), (1, -1, DIAGONAL), (-1, 1, DIAGONAL), (-1, -1, DIAGONAL)]

/-- `neighbors8` (pathfinding.js lines 251-277): filter directions that
would cut a corner (a diagonal step needs both adjacent orthogonal
cells walkable), translate to absolute coordinates, keep walkable
cells. -/
def neighbors8 (x y : ℤ) : List (ℤ × ℤ × Q2) :=
  ((DIRS.filter fun d =>
      decide (d.1.natAbs + d.2.1.natAbs = 1) ||
      (walkable (x + d.1) y && walkable x (y + d.2.1))).map
    fun d => (x + d.1, y + d.2.1, d.2.2)).filter
    fun n => walkable n.1 n.2.1

/-- `snapToGrid` (pathfinding.js lines 36-40): integral values pass
through, others are divided by the tile size and floored.
`Number.isInteger` on a rational is `den = 1`. -/
def snapToGrid (ts : ℚ) (pixelCoord : ℚ) : ℚ :=
  if pixelCoord.den = 1 then pixelCoord else (⌊pixelCoord / ts⌋ : ℚ)

/-- `snapToGrid` with its (always integral) result read back as the
integer used for grid indexing; `snapInt_cast` proves it coincides with
`snapToGrid`. -/
def snapInt (ts : ℚ) (q : ℚ) : ℤ :=
  if q.den = 1 then q.num else ⌊q / ts⌋

/-- `convertPixelCoordinatesToTileIFNeeded` (pathfinding.js lines
28-35). -/
def convertPixelCoordinatesToTileIFNeeded (ts : ℚ) (startX startY endX endY : ℚ) : Ctx :=
  ⟨snapInt ts startX, snapInt ts startY, snapInt ts endX, snapInt ts endY⟩

/-- `validateStartandEndPoints` (pathfinding.js lines 41-47). -/
def validateStartandEndPoints (c : Ctx) : Stage :=
  if !walkable c.sx c.sy || !walkable c.gx c.gy then .invalid
  else if decide (c.sx = c.gx) && decide (c.sy = c.gy) then .done []
  else .okst c

/-- The two values the reduce accumulator of `pickBestIndex` can take:
the seed `null`, and `undefined` (the index parameter Ramda never
supplies). -/
inductive JIdx where
  | jnull
  | jundef
deriving DecidableEq

/-- `pickBestIndex` (pathfinding.js lines 157-163), translated with
Ramda's actual two-argument reduce callback convention: the callback
`(best, n, i) => (best === null || n.f < open[best].f ? i : best)`
receives no index, so `i` is `undefined`.  Seed `null`; on the first
element the `best === null` test short-circuits and yields `undefined`;
on a second element `open[undefined].f` throws. -/
def pickBestIndex (l : List Node) : Except JsError JIdx :=
  l.foldlM
    (fun best _ =>
      match best with
      | .jnull => Except.ok .jundef
      | .jundef => Except.error .typeErrorReduceF)
    JIdx.jnull

/-- `step` (pathfinding.js lines 80-155).  `idx` is `null` only for an
empty open list (then `idx === null` returns the state unchanged,
line 87); otherwise `idx` is `undefined` — never a number — so
`open[idx]` is `undefined` and `key(current.x, current.y)` (line 90)
throws.  Lines 91-153 are therefore unreachable for every input and
are not modelled; in particular no state with a nonempty open list is
ever transformed. -/
def step (goalK : Key) (s : AState) : Except JsError AState :=
  match pickBestIndex s.openList with
  | .error e => .error e
  | .ok .jnull => .ok s
  | .ok .jundef => .error .typeErrorCurrentX

/-- `doneOrEmpty` (pathfinding.js lines 165-169). -/
def doneOrEmpty (goalK : Key) (s : AState) : Bool :=
  s.openList.isEmpty || decide (s.currentK = some goalK)

/-- The reduce inside `hardStopByG` (pathfinding.js lines 173-181):
minimum `gScore` over the open list, `Infinity` when empty. -/
def minG (s : AState) : OptCost :=
  s.openList.foldl
    (fun acc n =>
      if qaltB (s.gScore (n.x, n.y)) acc then s.gScore (n.x, n.y) else acc)
    none

/-- `hardStopByG` (pathfinding.js lines 171-184): `minG > MAX_LEN`. -/
def hardStopByG (maxLen : OptCost) (s : AState) : Bool :=
  qaltB maxLen (minG s)

/-- The stop predicate of the `R.until` loop (pathfinding.js lines
71-74). -/
def untilPred (maxLen : OptCost) (goalK : Key) (s : AState) : Bool :=
  doneOrEmpty goalK s || hardStopByG maxLen s

/-- Fuel bound for the model of the unbounded `R.until` loop.
`run_resolves` proves the loop settles within a single iteration for
every state, so any fuel ≥ 1 computes the loop's true result. -/
def SEARCH_FUEL : ℕ := 1000

/-- `run` (pathfinding.js lines 70-78): `R.until(pred, step, state)`,
i.e. apply `step` until `pred` holds.  The loop is modelled with fuel;
the `outOfFuel` branch is unreachable from `findPath` (see
`run_resolves`). -/
def run (maxLen : OptCost) (goalK : Key) : ℕ → AState → Except JsError AState
  | 0, s => if untilPred maxLen goalK s then .ok s else .error .outOfFuel
  | fuel + 1, s =>
    if untilPred maxLen goalK s then .ok s
    else
      match step goalK s with
      | .error e => .error e
      | .ok s2 => run maxLen goalK fuel s2

/-- The initial search state built by `runAstar` (pathfinding.js lines
54-61).  The source stores `parents[startK] = null`; reads go through
`get(parents, k, null)`, which yields `null` both for the stored null
and for absent keys, so the parent map starts as the constant `none`. -/
def initState (c : Ctx) : AState :=
  { openList := [⟨c.sx, c.sy, H c.sx c.sy c.gx c.gy⟩]
    gScore := fun k => if k = (c.sx, c.sy) then some ⟨0, 0⟩ else none
    fScore := fun k => if k = (c.sx, c.sy) then some (H c.sx c.sy c.gx c.gy) else none
    parents := fun _ => none
    closed := ∅
    currentK := none }

/-- `runAstar` (pathfinding.js lines 49-69). -/
def runAstar (maxLen : OptCost) (c : Ctx) : Except JsError Stage :=
  match run maxLen (c.gx, c.gy) SEARCH_FUEL (initState c) with
  | .error e => .error e
  | .ok endState => .ok (.ran (c.sx, c.sy) (c.gx, c.gy) endState)

/-- The `R.cond` dispatch inside `findPath` (pathfinding.js lines
19-24), with the original `R.propEq("kind", "ok")` name-first argument
order (Ramda ≤ 0.28): the `"ok"` stage runs the search, every other
stage passes through. -/
def condDispatch (maxLen : OptCost) : Stage → Except JsError Stage
  | .okst c => runAstar maxLen c
  | s => .ok s

/-- Recursion depth bound for the model of `build`; a malformed parent
chain makes the source recurse forever (stack overflow), modelled as
`rangeErrorStack`. -/
def BUILD_FUEL : ℕ := 1000

/-- `build` (pathfinding.js lines 218-222): walk parent pointers,
prepending, until the start key.  A `null` key (absent parent) loops
forever in the source — `get(parents, null, null)` is `null` again —
so that branch consumes fuel and ends in the stack-overflow error. -/
def build : ℕ → Option Key → List Key → (Key → Option Key) → Key → Except JsError (List Key)
  | 0, _, _, _, _ => .error .rangeErrorStack
  | fuel + 1, k?, acc, parents, startK =>
    match k? with
    | some k =>
      if k = startK then .ok (k :: acc)
      else build fuel (parents k) (k :: acc) parents startK
    | none => build fuel none acc parents startK

/-- `pathFromParents` (pathfinding.js lines 204-217): build the full
key list, drop the start (`R.tail`), convert keys back to coordinate
pairs (`unkey` is the identity under the pair encoding of keys). -/
def pathFromParents (parents : Key → Option Key) (startK goalK : Key) :
    Except JsError (List Key) :=
  match build BUILD_FUEL (some goalK) [] parents startK with
  | .error e => .error e
  | .ok full => .ok full.tail

/-- `finalize` (pathfinding.js lines 193-202): reconstruct only if the
loop stopped at the goal, and null out the path when the goal's final
`g`-score exceeds `MAX_LEN`. -/
def finalize (maxLen : OptCost) (startK goalK : Key) (s : AState) :
    Except JsError (Option (List Key)) :=
  if decide (s.currentK = some goalK) then
    match pathFromParents s.parents startK goalK with
    | .error e => .error e
    | .ok path => .ok (if qaleB (s.gScore goalK) maxLen then some path else none)
  else .ok none

/-- `processFinalResult` (pathfinding.js lines 185-191).  An `"ok"`
stage reaching this point (impossible with the modelled `R.cond`
semantics) would call `finalize(undefined, undefined)(undefined)` and
throw reading `.currentK` of `undefined`. -/
def processFinalResult (maxLen : OptCost) : Stage → Except JsError (Option (List Key))
  | .invalid => .ok none
  | .done path => .ok (some path)
  | .ran startK goalK endState => finalize maxLen startK goalK endState
  | .okst _ => .error .typeErrorStage

/-- `findPath` (pathfinding.js lines 15-27): snap, validate, run the
search on the `"ok"` stage, post-process.  `none` is the JavaScript
`null` "no path" sentinel; `Except.error` is a thrown exception. -/
def findPath (ts : ℚ) (maxLen : OptCost) (startX startY endX endY : ℚ) :
    Except JsError (Option (List Key)) :=
  match
    condDispatch maxLen
      (validateStartandEndPoints
        (convertPixelCoordinatesToTileIFNeeded ts startX startY endX endY)) with
  | .error e => .error e
  | .ok stage => processFinalResult maxLen stage

/-- The states a search passes through: `iter n s₀ = some s` says the
`R.until` loop, started at `s₀`, is still running after `n` steps and
its state is `s` (`none`: the loop has stopped or thrown before the
n-th step). -/
def iter (maxLen : OptCost) (goalK : Key) : ℕ → AState → Option AState
  | 0, s => some s
  | n + 1, s =>
    if untilPred maxLen goalK s then none
    else
      match step goalK s with
      | .error _ => none
      | .ok s2 => iter maxLen goalK n s2

/-- Number of open-list entries for a given coordinate. -/
def countOpen (k : Key) (l : List Node) : ℕ :=
  l.countP fun nd => decide ((nd.x, nd.y) = k)

/-! ### Ray marcher and collision probe (`map.js` lines 27-96) -/

/-- `MAX_DISTANCE` (map.js line 18). -/
def MAX_DISTANCE : ℝ := 200

/-- JavaScript `Math.trunc`: round toward zero. -/
noncomputable def jsTrunc (x : ℝ) : ℤ :=
  if 0 ≤ x then ⌊x⌋ else ⌈x⌉

/-- The marching loop of `castRay` (map.js lines 48-77), as a recursion
on fuel that also counts the unit steps taken.  Each round first tests
`accumulatedRayDistance < MAX_DISTANCE` (the `while` guard; the
accumulated distance always equals the Euclidean distance of the
current position from the origin, which the source keeps in a
variable), then advances one unit step, recomputes the distance,
truncates to cell indices and returns on leaving the map or hitting a
wall.  Fuel 201 is exact: the direction vector `(cos θ, sin θ)` is a
unit vector, so the accumulated distance after k steps is exactly k and
the guard fails at k = 200 at the latest (`rayMarch_bound`); the
fuel-exhausted fallback returns the same `while`-exit value and is
never reached from `castRay`. -/
noncomputable def rayMarch (ox oy dx dy : ℝ) : ℕ → ℝ → ℝ → ℝ × ℕ
  | 0, x, y => (Real.sqrt ((x - ox) ^ 2 + (y - oy) ^ 2), 0)
  | fuel + 1, x, y =>
    if Real.sqrt ((x - ox) ^ 2 + (y - oy) ^ 2) < MAX_DISTANCE then
      if jsTrunc (y + dy) < 0 ∨ MAP_HEIGHT ≤ jsTrunc (y + dy) ∨
          jsTrunc (x + dx) < 0 ∨ MAP_WIDTH ≤ jsTrunc (x + dx) then
        (Real.sqrt ((x + dx - ox) ^ 2 + (y + dy - oy) ^ 2), 1)
      else if mapAt (jsTrunc (x + dx)) (jsTrunc (y + dy)) = 1 then
        (Real.sqrt ((x + dx - ox) ^ 2 + (y + dy - oy) ^ 2), 1)
      else
        ((rayMarch ox oy dx dy fuel (x + dx) (y + dy)).1,
         (rayMarch ox oy dx dy fuel (x + dx) (y + dy)).2 + 1)
    else (Real.sqrt ((x - ox) ^ 2 + (y - oy) ^ 2), 0)

/-- The accumulated (pre-fisheye) distance `castRay` ends with. -/
noncomputable def castRayRaw (rayAngle playerX playerY : ℝ) : ℝ :=
  (rayMarch playerX playerY (Real.cos rayAngle) (Real.sin rayAngle) 201 playerX playerY).1

/-- The number of unit steps the marching loop performs. -/
noncomputable def castRaySteps (rayAngle playerX playerY : ℝ) : ℕ :=
  (rayMarch playerX playerY (Real.cos rayAngle) (Real.sin rayAngle) 201 playerX playerY).2

/-- `castRay` (map.js lines 27-81): the accumulated distance times the
fisheye-correction factor `cos(rayAngle − facingAngle)` (the source
multiplies at each of its three return sites; the factor is constant,
so this is the same value). -/
noncomputable def castRay (rayAngle playerX playerY facingAngle : ℝ) : ℝ :=
  castRayRaw rayAngle playerX playerY * Real.cos (rayAngle - facingAngle)

/-- `OFFSETS` (map.js lines 82-92): the 3×3 sample pattern. -/
def OFFSETS : List (ℤ × ℤ) :=
  [(-1, -1), (0, -1), (1, -1), (-1, 0), (0, 0), (1, 0), (-1, 1), (0, 1), (1, 1)]

/-- `checkWallCollision` (map.js lines 93-96): true iff any of the nine
sampled cells is a wall (with the radius defaulting to 0.2 at the call
sites that omit it; the parameter is kept explicit). -/
def checkWallCollision (x y radius : ℚ) : Bool :=
  OFFSETS.any fun d =>
    isWallAt ⌊x + (d.1 : ℚ) * radius⌋ ⌊y + (d.2 : ℚ) * radius⌋

/-! ### Concrete probe states used by witnesses -/

/-- A search state with an empty open list and a closed coordinate:
exercises `step` on the one branch that returns normally. -/
def closedProbeState : AState :=
  { openList := [], gScore := fun _ => some ⟨0, 0⟩, fScore := fun _ => none,
    parents := fun _ => none, closed := {((1 : ℤ), (1 : ℤ))}, currentK := none }

/-- A search state that stopped at goal `(2, 1)` with `g = 0`:
exercises the path-producing branch of `finalize`. -/
def goalProbeState : AState :=
  { openList := [], gScore := fun _ => some ⟨0, 0⟩, fScore := fun _ => none,
    parents := fun _ => none, closed := ∅, currentK := some ((2 : ℤ), (1 : ℤ)) }

/-- Decidable equality of evaluation results, for concrete runs. -/
instance {ε α : Type} [DecidableEq ε] [DecidableEq α] : DecidableEq (Except ε α)
  | .error a, .error b =>
    if h : a = b then .isTrue (by rw [h]) else .isFalse (by simp [h])
  | .error _, .ok _ => .isFalse (by simp)
  | .ok _, .error _ => .isFalse (by simp)
  | .ok a, .ok b =>
    if h : a = b then .isTrue (by rw [h]) else .isFalse (by simp [h])

/-! ### Supporting lemmas -/

/-- The integer test `Q2.nonnegB` decides exactly nonnegativity of the
real value `a + b·√2` — the encoded comparisons are the JavaScript
(real-number) ones. -/
theorem Q2.nonnegB_iff (x : Q2) : Q2.nonnegB x = true ↔ 0 ≤ Q2.toReal x := by
  have hs : (0:ℝ) ≤ Real.sqrt 2 := Real.sqrt_nonneg 2
  have hs2 : Real.sqrt 2 ^ 2 = 2 := Real.sq_sqrt (by norm_num)
  simp only [Q2.nonnegB, Q2.toReal, Bool.or_eq_true, Bool.and_eq_true,
    decide_eq_true_eq]
  constructor
  · rintro (⟨hb, ha | hsq⟩ | ⟨⟨hb, ha⟩, hsq⟩)
    · have hb' : (0:ℝ) ≤ (x.b : ℝ) := by exact_mod_cast hb
      have ha' : (0:ℝ) ≤ (x.a : ℝ) := by exact_mod_cast ha
      positivity
    · have hb' : (0:ℝ) ≤ (x.b : ℝ) := by exact_mod_cast hb
      have hsq' : (x.a : ℝ) ^ 2 ≤ 2 * (x.b : ℝ) ^ 2 := by exact_mod_cast hsq
      nlinarith [sq_nonneg ((x.a : ℝ) + (x.b : ℝ) * Real.sqrt 2),
        mul_nonneg hb' hs]
    · have hb' : ((x.b : ℝ)) < 0 := by exact_mod_cast hb
      have ha' : (0:ℝ) ≤ (x.a : ℝ) := by exact_mod_cast ha
      have hsq' : 2 * (x.b : ℝ) ^ 2 ≤ (x.a : ℝ) ^ 2 := by exact_mod_cast hsq
      nlinarith [mul_nonneg ha' hs]
  · intro h
    rcases le_or_lt 0 x.b with hb | hb
    · left
      refine ⟨hb, ?_⟩
      rcases le_or_lt 0 x.a with ha | ha
      · exact Or.inl ha
      · right
        have hb' : (0:ℝ) ≤ (x.b : ℝ) := by exact_mod_cast hb
        have ha' : ((x.a : ℝ)) < 0 := by exact_mod_cast ha
        have : (x.a : ℝ) ^ 2 ≤ 2 * (x.b : ℝ) ^ 2 := by
          nlinarith [mul_nonneg hb' hs]
        exact_mod_cast this
    · right
      have hb' : ((x.b : ℝ)) < 0 := by exact_mod_cast hb
      have ha' : (0:ℝ) ≤ (x.a : ℝ) := by
        nlinarith [mul_nonneg (neg_nonneg.2 hb'.le) hs]
      have hsq : 2 * (x.b : ℝ) ^ 2 ≤ (x.a : ℝ) ^ 2 := by
        nlinarith [mul_nonneg (neg_nonneg.2 hb'.le) hs]
      exact ⟨⟨hb, by exact_mod_cast ha'⟩, by exact_mod_cast hsq⟩

/-- `Q2.leB` is the real-number `≤`. -/
theorem Q2.leB_iff (u v : Q2) : Q2.leB u v = true ↔ Q2.toReal u ≤ Q2.toReal v := by
  rw [Q2.leB, Q2.nonnegB_iff]
  have h : Q2.toReal ⟨v.a - u.a, v.b - u.b⟩ = Q2.toReal v - Q2.toReal u := by
    simp only [Q2.toReal]
    push_cast
    ring
  rw [h, sub_nonneg]

/-- `Q2.ltB` is the real-number `<`. -/
theorem Q2.ltB_iff (u v : Q2) : Q2.ltB u v = true ↔ Q2.toReal u < Q2.toReal v := by
  rw [Q2.ltB, Bool.not_eq_true', ← not_le, ← Q2.leB_iff]
  simp

/-- The reduce of `pickBestIndex` over an empty open list returns its
seed `null`. -/
theorem pickBestIndex_nil : pickBestIndex [] = .ok .jnull := rfl

/-- On a one-element open list the reduce returns `undefined` (the
index Ramda never passed). -/
theorem pickBestIndex_single (a : Node) : pickBestIndex [a] = .ok .jundef := rfl

/-- On two or more elements the reduce callback evaluates
`open[undefined].f` and throws. -/
theorem pickBestIndex_cons_cons (a b : Node) (l : List Node) :
    pickBestIndex (a :: b :: l) = .error .typeErrorReduceF := rfl

/-- The `R.until` loop settles within one iteration for every state
and any fuel ≥ 1, so the fuel model computes the loop's true result
and the `outOfFuel` marker is unreachable: if the stop predicate
already holds the state is returned, otherwise the open list is
nonempty and `step` throws. -/
theorem run_resolves (maxLen : OptCost) (goalK : Key) (s : AState) (fuel : ℕ)
    (hfuel : 1 ≤ fuel) :
    (untilPred maxLen goalK s = true → run maxLen goalK fuel s = .ok s) ∧
    (untilPred maxLen goalK s = false →
      ∃ e, e ≠ .outOfFuel ∧ run maxLen goalK fuel s = .error e) := by
  obtain ⟨f, rfl⟩ : ∃ f, fuel = f + 1 := ⟨fuel - 1, by omega⟩
  constructor
  · intro hp
    rw [run, if_pos hp]
  · intro hp
    have hstep : ∃ e, e ≠ JsError.outOfFuel ∧ step goalK s = .error e := by
      rcases hl : s.openList with _ | ⟨a, _ | ⟨b, l⟩⟩
      · exfalso
        have : s.openList.isEmpty = true := by rw [hl]; rfl
        rw [untilPred, doneOrEmpty, this] at hp
        simp at hp
      · exact ⟨.typeErrorCurrentX, by simp, by rw [step, hl, pickBestIndex_single]⟩
      · exact ⟨.typeErrorReduceF, by simp, by rw [step, hl, pickBestIndex_cons_cons]⟩
    obtain ⟨e, he, hs⟩ := hstep
    exact ⟨e, he, by rw [run, if_neg (by rw [hp]; exact Bool.false_ne_true), hs]⟩

/-- The integer-valued snap agrees with the source's `snapToGrid`. -/
theorem snapInt_cast (ts q : ℚ) : ((snapInt ts q : ℤ) : ℚ) = snapToGrid ts q := by
  rw [snapInt, snapToGrid]
  split
  · exact Rat.coe_int_num_of_den_eq_one (by assumption)
  · rfl

/-- `step` on the freshly initialised state (open list `[start]`)
throws: the search dies on its first expansion. -/
theorem step_initState (goalK : Key) (c : Ctx) :
    step goalK (initState c) = .error .typeErrorCurrentX := rfl

/-- `walkable` unfolded to its in-bounds and cell conditions. -/
theorem walkable_eq_true_iff (x y : ℤ) :
    walkable x y = true ↔
      ((0 ≤ y ∧ y < MAP_HEIGHT ∧ 0 ≤ x ∧ x < MAP_WIDTH) ∧ mapAt x y = 0) := by
  simp [walkable, inBounds, and_assoc]

/-- `isWallAt` unfolded to its in-bounds and cell conditions. -/
theorem isWallAt_eq_true_iff (gx gy : ℤ) :
    isWallAt gx gy = true ↔
      (0 ≤ gy ∧ gy < MAP_HEIGHT ∧ 0 ≤ gx ∧ gx < MAP_WIDTH ∧ mapAt gx gy = 1) := by
  simp [isWallAt, and_assoc]

/-- The only `done` stage `validateStartandEndPoints` produces carries
the empty path. -/
theorem validate_done_eq {c : Ctx} {p : List Key}
    (h : validateStartandEndPoints c = .done p) : p = [] := by
  rw [validateStartandEndPoints] at h
  split_ifs at h
  injection h with h
  exact h.symm

/-- The search loop on an initial state either stops immediately (stop
predicate already true) or throws the first-step TypeError. -/
theorem run_init_cases (maxLen : OptCost) (gk : Key) (c : Ctx) :
    (run maxLen gk SEARCH_FUEL (initState c) = .ok (initState c) ∧
      untilPred maxLen gk (initState c) = true) ∨
    run maxLen gk SEARCH_FUEL (initState c) = .error .typeErrorCurrentX := by
  rcases h : untilPred maxLen gk (initState c) with _ | _
  · right
    rw [show SEARCH_FUEL = 999 + 1 from rfl, run,
      if_neg (by rw [h]; exact Bool.false_ne_true), step_initState]
  · left
    exact ⟨by rw [show SEARCH_FUEL = 999 + 1 from rfl, run, if_pos h], rfl⟩

/-- Finalizing an initial state yields the null path: its `currentK`
is still `undefined`. -/
theorem finalize_initState (maxLen : OptCost) (sk gk : Key) (c : Ctx) :
    finalize maxLen sk gk (initState c) = .ok none := by
  rw [finalize, if_neg]
  simp [initState]

/-- Every value the marching loop returns is a square root, hence
non-negative. -/
theorem rayMarch_fst_nonneg (ox oy dx dy : ℝ) :
    ∀ (fuel : ℕ) (x y : ℝ), 0 ≤ (rayMarch ox oy dx dy fuel x y).1 := by
  intro fuel
  induction fuel with
  | zero => intro x y; rw [rayMarch]; exact Real.sqrt_nonneg _
  | succ f ih =>
    intro x y
    rw [rayMarch]
    split_ifs <;> first | exact Real.sqrt_nonneg _ | exact ih _ _

/-- Invariant of the marching loop for a unit direction vector: after
`k` unit steps the position is `origin + k·dir`, the accumulated
distance is exactly `k`, so with fuel `201 − k` the loop returns a
distance ≤ 200 after at most `200 − k` further steps. -/
theorem rayMarch_bound (dx dy : ℝ) (hunit : dx ^ 2 + dy ^ 2 = 1) :
    ∀ (fuel k : ℕ) (ox oy x y : ℝ), fuel + k = 201 → k ≤ 200 →
      x = ox + k * dx → y = oy + k * dy →
      (rayMarch ox oy dx dy fuel x y).1 ≤ 200 ∧
      (rayMarch ox oy dx dy fuel x y).2 + k ≤ 200 := by
  intro fuel
  induction fuel with
  | zero => intro k ox oy x y hf hk _ _; omega
  | succ f ih =>
    intro k ox oy x y hf hk hx hy
    have hdist : Real.sqrt ((x - ox) ^ 2 + (y - oy) ^ 2) = (k : ℝ) := by
      rw [hx, hy]
      have h2 : (ox + k * dx - ox) ^ 2 + (oy + k * dy - oy) ^ 2 = (k : ℝ) ^ 2 := by
        have h3 : (ox + k * dx - ox) ^ 2 + (oy + k * dy - oy) ^ 2 =
            (k : ℝ) ^ 2 * (dx ^ 2 + dy ^ 2) := by ring
        rw [h3, hunit, mul_one]
      rw [h2, Real.sqrt_sq (Nat.cast_nonneg k)]
    rcases eq_or_lt_of_le hk with hk200 | hklt
    · subst hk200
      rw [rayMarch, if_neg (by rw [hdist, MAX_DISTANCE]; push_cast; norm_num)]
      refine ⟨?_, by simp⟩
      show Real.sqrt ((x - ox) ^ 2 + (y - oy) ^ 2) ≤ 200
      rw [hdist]
      push_cast
      norm_num
    · have hdist' : Real.sqrt ((x + dx - ox) ^ 2 + (y + dy - oy) ^ 2) = ((k + 1 : ℕ) : ℝ) := by
        have h2 : (x + dx - ox) ^ 2 + (y + dy - oy) ^ 2 = ((k + 1 : ℕ) : ℝ) ^ 2 := by
          rw [hx, hy]
          have h3 : (ox + k * dx + dx - ox) ^ 2 + (oy + k * dy + dy - oy) ^ 2 =
              ((k : ℝ) + 1) ^ 2 * (dx ^ 2 + dy ^ 2) := by ring
          rw [h3, hunit, mul_one]
          push_cast
          ring
        rw [h2, Real.sqrt_sq (Nat.cast_nonneg _)]
      have hk1 : ((k + 1 : ℕ) : ℝ) ≤ 200 := by exact_mod_cast hklt
      rw [rayMarch, if_pos (by rw [hdist, MAX_DISTANCE]; exact_mod_cast hklt)]
      split_ifs with hb hw
      · refine ⟨?_, by show 1 + k ≤ 200; omega⟩
        show Real.sqrt ((x + dx - ox) ^ 2 + (y + dy - oy) ^ 2) ≤ 200
        rw [hdist']
        exact hk1
      · refine ⟨?_, by show 1 + k ≤ 200; omega⟩
        show Real.sqrt ((x + dx - ox) ^ 2 + (y + dy - oy) ^ 2) ≤ 200
        rw [hdist']
        exact hk1
      · have hrec := ih (k + 1) ox oy (x + dx) (y + dy) (by omega) (by omega)
          (by rw [hx]; push_cast; ring) (by rw [hy]; push_cast; ring)
        exact ⟨hrec.1, by have := hrec.2; omega⟩

/-! ### Claim theorems -/

/-- C1: the spec claims that for every start/goal pair of walkable
cells in an obstacle-free rectangle `findPath` returns a minimal-cost
path whose cost equals the octile distance `H(start, goal)`.  The code
cannot do this for any pair: the very first expansion step dereferences
`open[undefined]` (Ramda's reduce passes no index to the callback of
`pickBestIndex`) and throws a TypeError.  Witnessed here at
`(2,1) → (3,1)`, two distinct walkable cells of one obstacle-free row
(octile distance `STRAIGHT`): instead of the one-step optimal path, the
search throws. -/
theorem findPath_throws_on_free_rectangle :
    walkable 2 1 = true ∧ walkable 3 1 = true ∧ H 2 1 3 1 = STRAIGHT ∧
    findPath 1 none 2 1 3 1 = .error .typeErrorCurrentX :=
  ⟨by decide, by decide, by decide, by decide⟩

/-- C2: throughout every `findPath` search, each grid coordinate is in
at most one of the open and closed sets, and a closed coordinate is
never inserted into the open list again.  Part 1: in every state the
search loop reaches, no open-list coordinate is closed — this holds
because the only reachable state is the initial one (closed empty);
the first `step` throws.  Part 2: any `step` that returns normally
leaves the open list unchanged, so the number of open entries of a
closed coordinate never grows across a successful step. -/
theorem open_closed_discipline :
    (∀ (ts : ℚ) (maxLen : OptCost) (startX startY endX endY : ℚ) (c : Ctx),
      validateStartandEndPoints
        (convertPixelCoordinatesToTileIFNeeded ts startX startY endX endY) = .okst c →
      ∀ (n : ℕ) (s : AState), iter maxLen (c.gx, c.gy) n (initState c) = some s →
        ∀ nd ∈ s.openList, (nd.x, nd.y) ∉ s.closed) ∧
    (∀ (goalK : Key) (s s2 : AState), step goalK s = .ok s2 →
      ∀ k ∈ s.closed, countOpen k s2.openList ≤ countOpen k s.openList) := by
  constructor
  · intro ts maxLen sX sY eX eY c _ n s hiter nd hnd
    match n with
    | 0 =>
      rw [iter] at hiter
      obtain rfl : initState c = s := by injection hiter
      simp only [initState, List.mem_singleton] at hnd
      subst hnd
      exact Finset.not_mem_empty _
    | n + 1 =>
      rw [iter] at hiter
      rcases h : untilPred maxLen (c.gx, c.gy) (initState c) with _ | _
      · rw [if_neg (by rw [h]; exact Bool.false_ne_true),
          step_initState (c.gx, c.gy) c] at hiter
        exact absurd hiter (by simp)
      · rw [if_pos (by rw [h])] at hiter
        exact absurd hiter (by simp)
  · intro goalK s s2 hstep k hk
    have hs : s2 = s := by
      rw [step] at hstep
      rcases hpick : pickBestIndex s.openList with e | j
      · rw [hpick] at hstep; exact absurd hstep (by simp)
      · rcases j with _ | _
        · rw [hpick] at hstep
          injection hstep with h
          exact h.symm
        · rw [hpick] at hstep; exact absurd hstep (by simp)
    rw [hs]

theorem open_closed_discipline_witness :
    (validateStartandEndPoints (convertPixelCoordinatesToTileIFNeeded 1 2 1 3 1) =
      .okst ⟨2, 1, 3, 1⟩) ∧
    (iter none ((3 : ℤ), (1 : ℤ)) 0 (initState ⟨2, 1, 3, 1⟩) =
      some (initState ⟨2, 1, 3, 1⟩)) ∧
    (∀ nd ∈ (initState (⟨2, 1, 3, 1⟩ : Ctx)).openList,
      (nd.x, nd.y) ∉ (initState (⟨2, 1, 3, 1⟩ : Ctx)).closed) ∧
    (step ((3 : ℤ), (1 : ℤ)) closedProbeState = .ok closedProbeState ∧
      ∀ k ∈ closedProbeState.closed,
        countOpen k closedProbeState.openList ≤ countOpen k closedProbeState.openList) := by
  have hval : validateStartandEndPoints (convertPixelCoordinatesToTileIFNeeded 1 2 1 3 1) =
      .okst ⟨2, 1, 3, 1⟩ := rfl
  have hiter : iter none ((3 : ℤ), (1 : ℤ)) 0 (initState ⟨2, 1, 3, 1⟩) =
      some (initState ⟨2, 1, 3, 1⟩) := rfl
  have hstep : step ((3 : ℤ), (1 : ℤ)) closedProbeState = .ok closedProbeState := rfl
  exact ⟨hval, hiter,
    open_closed_discipline.1 1 none 2 1 3 1 ⟨2, 1, 3, 1⟩ hval 0 _ hiter,
    hstep, open_closed_discipline.2 ((3 : ℤ), (1 : ℤ)) _ _ hstep⟩

/-- C3 counterexample: `castRay` does NOT return a non-negative
distance for every input.  The fisheye factor `cos(angle − viewAngle)`
can be negative: a ray cast at angle π from `(2.5, 1.5)` with view
angle 0 hits the wall at cell `(1, 1)` after one unit step (raw
distance 1) and returns `1 · cos π = −1 < 0`. -/
theorem castRay_returns_negative : castRay Real.pi 2.5 1.5 0 < 0 := by
  have hcos : Real.cos (Real.pi - 0) = -1 := by rw [sub_zero, Real.cos_pi]
  have ht1 : jsTrunc ((1.5 : ℝ) + 0) = 1 := by
    rw [jsTrunc, if_pos (by norm_num)]
    rw [Int.floor_eq_iff]
    constructor <;> norm_num
  have ht2 : jsTrunc ((2.5 : ℝ) + -1) = 1 := by
    rw [jsTrunc, if_pos (by norm_num)]
    rw [Int.floor_eq_iff]
    constructor <;> norm_num
  have hraw : castRayRaw Real.pi 2.5 1.5 = 1 := by
    rw [castRayRaw, Real.cos_pi, Real.sin_pi]
    rw [show (201 : ℕ) = 200 + 1 from rfl, rayMarch]
    rw [if_pos (by
      rw [show ((2.5 : ℝ) - 2.5) ^ 2 + ((1.5 : ℝ) - 1.5) ^ 2 = 0 by norm_num,
        Real.sqrt_zero, MAX_DISTANCE]
      norm_num)]
    rw [ht1, ht2]
    rw [if_neg (by decide), if_pos (by decide)]
    rw [show ((2.5 : ℝ) + -1 - 2.5) ^ 2 + ((1.5 : ℝ) + 0 - 1.5) ^ 2 = 1 by norm_num,
      Real.sqrt_one]
  rw [castRay, hraw, hcos]
  norm_num

/-- C3 amended: the raw marched distance is always non-negative, and
the value `castRay` returns is that raw distance times the fisheye
factor `cos(angle − viewAngle)`; the result is therefore non-negative
whenever the fisheye factor is (in particular whenever the ray is
within a quarter turn of the view direction). -/
theorem castRay_nonneg_of_fisheye_nonneg
    (rayAngle playerX playerY facingAngle : ℝ)
    (h : 0 ≤ Real.cos (rayAngle - facingAngle)) :
    0 ≤ castRayRaw rayAngle playerX playerY ∧
    castRay rayAngle playerX playerY facingAngle =
      castRayRaw rayAngle playerX playerY * Real.cos (rayAngle - facingAngle) ∧
    0 ≤ castRay rayAngle playerX playerY facingAngle :=
  ⟨rayMarch_fst_nonneg _ _ _ _ _ _ _, rfl,
    mul_nonneg (rayMarch_fst_nonneg _ _ _ _ _ _ _) h⟩

theorem castRay_nonneg_of_fisheye_nonneg_witness :
    (0 ≤ Real.cos ((0 : ℝ) - 0)) ∧
    (0 ≤ castRayRaw 0 0 0 ∧
     castRay 0 0 0 0 = castRayRaw 0 0 0 * Real.cos ((0 : ℝ) - 0) ∧
     0 ≤ castRay 0 0 0 0) := by
  have h : 0 ≤ Real.cos ((0 : ℝ) - 0) := by
    rw [sub_zero, Real.cos_zero]
    norm_num
  exact ⟨h, castRay_nonneg_of_fisheye_nonneg 0 0 0 0 h⟩

/-- C4: the neighbour generator never yields a diagonal neighbour
unless both orthogonally adjacent cells of the diagonal step are
walkable: any member of `neighbors8 x y` that changes both coordinates
has `(nx, y)` and `(x, ny)` walkable.  (Paths inherit this: every
consecutive pair of a reconstructed path is generated by
`neighbors8`.) -/
theorem neighbors8_no_corner_cut (x y nx ny : ℤ) (cost : Q2)
    (hmem : (nx, ny, cost) ∈ neighbors8 x y) (hnx : nx ≠ x) (hny : ny ≠ y) :
    walkable nx y = true ∧ walkable x ny = true := by
  rw [neighbors8, List.mem_filter] at hmem
  obtain ⟨h1, _⟩ := hmem
  rw [List.mem_map] at h1
  obtain ⟨d, hd, heq⟩ := h1
  rw [List.mem_filter] at hd
  obtain ⟨hdl, hcond⟩ := hd
  simp only [DIRS, List.mem_cons, List.not_mem_nil, or_false] at hdl
  rcases hdl with rfl | rfl | rfl | rfl | rfl | rfl | rfl | rfl <;>
    simp only [Prod.mk.injEq] at heq <;>
    obtain ⟨h1, h2, h3⟩ := heq <;>
    (try (exfalso; omega)) <;>
    · simp only [Int.natAbs_one, decide_eq_true_eq, Bool.or_eq_true,
        Bool.and_eq_true] at hcond
      rcases hcond with hcond | ⟨w1, w2⟩
      · omega
      · subst h1
        subst h2
        exact ⟨w1, w2⟩

theorem neighbors8_no_corner_cut_witness :
    ((3, 3, DIAGONAL) ∈ neighbors8 2 2 ∧ (3 : ℤ) ≠ 2 ∧ (3 : ℤ) ≠ 2) ∧
    (walkable 3 2 = true ∧ walkable 2 3 = true) :=
  ⟨⟨by decide, by decide, by decide⟩,
    neighbors8_no_corner_cut 2 2 3 3 DIAGONAL (by decide) (by decide) (by decide)⟩

/-- C5: whenever the snapped start or goal cell is not walkable (out
of the grid bounds or occupied), `findPath` returns the no-path
sentinel `null` — not an exception, not a path. -/
theorem findPath_invalid_endpoint_null (ts : ℚ) (maxLen : OptCost)
    (startX startY endX endY : ℚ)
    (h : walkable (snapInt ts startX) (snapInt ts startY) = false ∨
         walkable (snapInt ts endX) (snapInt ts endY) = false) :
    findPath ts maxLen startX startY endX endY = .ok none := by
  have hval : validateStartandEndPoints
      (convertPixelCoordinatesToTileIFNeeded ts startX startY endX endY) = .invalid := by
    rw [validateStartandEndPoints, if_pos]
    rcases h with h | h <;>
      simp [convertPixelCoordinatesToTileIFNeeded, h]
  rw [findPath, hval]
  rfl

theorem findPath_invalid_endpoint_null_witness :
    (walkable (snapInt 1 0) (snapInt 1 0) = false ∨
      walkable (snapInt 1 2) (snapInt 1 1) = false) ∧
    findPath 1 none 0 0 2 1 = .ok none :=
  ⟨Or.inl (by decide),
    findPath_invalid_endpoint_null 1 none 0 0 2 1 (Or.inl (by decide))⟩

/-- C6: when start and goal snap to the same walkable cell, `findPath`
returns the empty path, and it does so on the validation fast path
(`validateStartandEndPoints` yields the `done` stage, which the
`R.cond` dispatch passes over unchanged — the A* search is never
entered). -/
theorem findPath_same_cell_empty (ts : ℚ) (maxLen : OptCost)
    (startX startY endX endY : ℚ)
    (hx : snapInt ts startX = snapInt ts endX)
    (hy : snapInt ts startY = snapInt ts endY)
    (hw : walkable (snapInt ts startX) (snapInt ts startY) = true) :
    findPath ts maxLen startX startY endX endY = .ok (some []) ∧
    validateStartandEndPoints
      (convertPixelCoordinatesToTileIFNeeded ts startX startY endX endY) = .done [] := by
  have hval : validateStartandEndPoints
      (convertPixelCoordinatesToTileIFNeeded ts startX startY endX endY) = .done [] := by
    rw [validateStartandEndPoints, if_neg, if_pos]
    · simp [convertPixelCoordinatesToTileIFNeeded, hx, hy]
    · simp [convertPixelCoordinatesToTileIFNeeded, ← hx, ← hy, hw]
  refine ⟨?_, hval⟩
  rw [findPath, hval]
  rfl

theorem findPath_same_cell_empty_witness :
    (snapInt 1 2 = snapInt 1 2 ∧ snapInt 1 1 = snapInt 1 1 ∧
      walkable (snapInt 1 2) (snapInt 1 1) = true) ∧
    (findPath 1 none 2 1 2 1 = .ok (some []) ∧
      validateStartandEndPoints (convertPixelCoordinatesToTileIFNeeded 1 2 1 2 1) =
        .done []) :=
  ⟨⟨rfl, rfl, by decide⟩,
    findPath_same_cell_empty 1 none 2 1 2 1 rfl rfl (by decide)⟩

/-- C7 counterexample: the claim "every non-null path returned by
`findPath` … has the goal cell as its last element" fails at
start = goal: `findPath(2,1,2,1)` returns the non-null empty path,
which has no last element at all. -/
theorem findPath_empty_path_counterexample :
    findPath 1 none 2 1 2 1 = .ok (some []) ∧
    ([] : List Key).getLast? ≠ some ((2 : ℤ), (1 : ℤ)) :=
  ⟨by decide, by decide⟩

/-- C7 amended (restricted to non-empty paths): every non-null path
`findPath` returns is either empty (the start = goal case) or ends at
the snapped goal cell and excludes the snapped start cell; and
`finalize` produces a (non-null) path only when the search stopped at
the goal and the goal's finalized g-score is within `MAX_LEN`. -/
theorem findPath_path_shape :
    (∀ (ts : ℚ) (maxLen : OptCost) (startX startY endX endY : ℚ) (p : List Key),
      findPath ts maxLen startX startY endX endY = .ok (some p) →
      p = [] ∨ (p.getLast? = some (snapInt ts endX, snapInt ts endY) ∧
        (snapInt ts startX, snapInt ts startY) ∉ p)) ∧
    (∀ (maxLen : OptCost) (startK goalK : Key) (st : AState) (res : Option (List Key)),
      finalize maxLen startK goalK st = .ok res → res ≠ none →
      st.currentK = some goalK ∧ qaleB (st.gScore goalK) maxLen = true) := by
  constructor
  · intro ts maxLen sX sY eX eY p hfp
    rcases hval : validateStartandEndPoints
        (convertPixelCoordinatesToTileIFNeeded ts sX sY eX eY) with _ | q | c2 | ⟨sk, gk, es⟩
    · rw [findPath, hval] at hfp
      exact absurd hfp (by simp [condDispatch, processFinalResult])
    · left
      have hq : q = [] := validate_done_eq hval
      rw [findPath, hval] at hfp
      subst hq
      simp only [condDispatch, processFinalResult] at hfp
      injection hfp with h
      injection h with h
      exact h.symm
    · rw [findPath, hval] at hfp
      rcases run_init_cases maxLen (c2.gx, c2.gy) c2 with ⟨hrun, _⟩ | hrun
      · rw [condDispatch, runAstar, hrun] at hfp
        simp only [processFinalResult, finalize_initState] at hfp
        exact absurd hfp (by simp)
      · rw [condDispatch, runAstar, hrun] at hfp
        exact absurd hfp (by simp)
    · exact absurd hval (by rw [validateStartandEndPoints]; split_ifs <;> simp)
  · intro maxLen sk gk st res hfin hres
    rw [finalize] at hfin
    rcases hc : decide (st.currentK = some gk) with _ | _
    · rw [if_neg (by rw [hc]; exact Bool.false_ne_true)] at hfin
      injection hfin with h
      exact absurd h.symm hres
    · rw [if_pos hc] at hfin
      rcases hpp : pathFromParents st.parents sk gk with e | path
      · rw [hpp] at hfin
        exact absurd hfin (by simp)
      · rw [hpp] at hfin
        injection hfin with h
        rcases hq : qaleB (st.gScore gk) maxLen with _ | _
        · rw [hq] at h
          simp at h
          exact absurd h.symm hres
        · exact ⟨of_decide_eq_true hc, rfl⟩

theorem findPath_path_shape_witness :
    (findPath 1 none 2 1 2 1 = .ok (some []) ∧
      (([] : List Key) = [] ∨
        (([] : List Key).getLast? = some (snapInt 1 2, snapInt 1 1) ∧
          (snapInt 1 2, snapInt 1 1) ∉ ([] : List Key)))) ∧
    (finalize none ((2 : ℤ), (1 : ℤ)) ((2 : ℤ), (1 : ℤ)) goalProbeState = .ok (some []) ∧
      some ([] : List Key) ≠ none ∧
      (goalProbeState.currentK = some ((2 : ℤ), (1 : ℤ)) ∧
        qaleB (goalProbeState.gScore ((2 : ℤ), (1 : ℤ))) none = true)) := by
  have hfp : findPath 1 none 2 1 2 1 = .ok (some []) := by decide
  have hfin : finalize none ((2 : ℤ), (1 : ℤ)) ((2 : ℤ), (1 : ℤ)) goalProbeState =
      .ok (some []) := by decide
  have hne : some ([] : List Key) ≠ none := by decide
  exact ⟨⟨hfp, findPath_path_shape.1 1 none 2 1 2 1 [] hfp⟩,
    hfin, hne, findPath_path_shape.2 none _ _ goalProbeState (some []) hfin hne⟩

/-- C8: the ray-marching loop terminates for every input within
`MAX_DISTANCE = 200` unit steps, its raw accumulated distance never
exceeds the 200-unit cap (the direction vector is a unit vector, so
the accumulated distance after k steps is exactly k), and the returned
fisheye-corrected value is finite, bounded by 200 in absolute value. -/
theorem castRay_march_bounded (rayAngle playerX playerY : ℝ) :
    castRaySteps rayAngle playerX playerY ≤ 200 ∧
    castRayRaw rayAngle playerX playerY ≤ 200 ∧
    ∀ facingAngle : ℝ, |castRay rayAngle playerX playerY facingAngle| ≤ 200 := by
  have h := rayMarch_bound (Real.cos rayAngle) (Real.sin rayAngle)
    (Real.cos_sq_add_sin_sq rayAngle) 201 0 playerX playerY playerX playerY
    (by norm_num) (by norm_num) (by push_cast; ring) (by push_cast; ring)
  have hnn : 0 ≤ castRayRaw rayAngle playerX playerY :=
    rayMarch_fst_nonneg playerX playerY (Real.cos rayAngle) (Real.sin rayAngle)
      201 playerX playerY
  have hr : castRayRaw rayAngle playerX playerY ≤ 200 := h.1
  have hs : castRaySteps rayAngle playerX playerY ≤ 200 := by
    have := h.2
    rw [castRaySteps]
    omega
  refine ⟨hs, hr, ?_⟩
  intro facingAngle
  rw [castRay, abs_mul]
  calc |castRayRaw rayAngle playerX playerY| * |Real.cos (rayAngle - facingAngle)|
      ≤ 200 * 1 := by
        apply mul_le_mul
        · rw [abs_of_nonneg hnn]; exact hr
        · exact Real.abs_cos_le_one _
        · exact abs_nonneg _
        · norm_num
    _ = 200 := by norm_num

/-- C9: `snapToGrid` leaves a world coordinate that is already an
integer unchanged, and divides any non-integral coordinate by the tile
size and floors it. -/
theorem snapToGrid_semantics (ts q : ℚ) :
    ((∃ n : ℤ, q = (n : ℚ)) → snapToGrid ts q = q) ∧
    ((¬ ∃ n : ℤ, q = (n : ℚ)) → snapToGrid ts q = (⌊q / ts⌋ : ℚ)) := by
  constructor
  · rintro ⟨n, rfl⟩
    rw [snapToGrid, if_pos (Rat.den_intCast n)]
  · intro h
    rw [snapToGrid, if_neg]
    intro hd
    exact h ⟨q.num, (Rat.coe_int_num_of_den_eq_one hd).symm⟩

theorem snapToGrid_semantics_witness :
    ((∃ n : ℤ, (2 : ℚ) = (n : ℚ)) ∧ snapToGrid 1 2 = 2) ∧
    ((¬ ∃ n : ℤ, (5 : ℚ) / 2 = (n : ℚ)) ∧
      snapToGrid 3 ((5 : ℚ) / 2) = (⌊((5 : ℚ) / 2) / 3⌋ : ℚ)) := by
  have h1 : ∃ n : ℤ, (2 : ℚ) = (n : ℚ) := ⟨2, by norm_num⟩
  have h2 : ¬ ∃ n : ℤ, (5 : ℚ) / 2 = (n : ℚ) := by
    rintro ⟨n, h⟩
    have h3 : (5 : ℚ) = n * 2 := by field_simp at h; exact h
    have h4 : (5 : ℤ) = n * 2 := by exact_mod_cast h3
    omega
  exact ⟨⟨h1, (snapToGrid_semantics 1 2).1 h1⟩,
    ⟨h2, (snapToGrid_semantics 3 ((5 : ℚ) / 2)).2 h2⟩⟩

/-- C10: when all nine cells of the 3×3 probe pattern fall outside the
grid bounds, `checkWallCollision` reports no collision (out of bounds
is non-blocking for the probe) — the opposite polarity of the
pathfinder's `walkable` predicate, which is false for every
out-of-bounds cell (out of bounds is blocked for the search). -/
theorem collision_probe_oob_polarity :
    (∀ (x y radius : ℚ),
      (∀ d ∈ OFFSETS,
        ¬(0 ≤ ⌊y + (d.2 : ℚ) * radius⌋ ∧ ⌊y + (d.2 : ℚ) * radius⌋ < MAP_HEIGHT ∧
          0 ≤ ⌊x + (d.1 : ℚ) * radius⌋ ∧ ⌊x + (d.1 : ℚ) * radius⌋ < MAP_WIDTH)) →
      checkWallCollision x y radius = false) ∧
    (∀ gx gy : ℤ, ¬(0 ≤ gy ∧ gy < MAP_HEIGHT ∧ 0 ≤ gx ∧ gx < MAP_WIDTH) →
      walkable gx gy = false) := by
  constructor
  · intro x y radius h
    rw [checkWallCollision, ← Bool.not_eq_true, List.any_eq_true]
    rintro ⟨d, hd, hw⟩
    obtain ⟨h1, h2, h3, h4, _⟩ := (isWallAt_eq_true_iff _ _).1 hw
    exact h d hd ⟨h1, h2, h3, h4⟩
  · intro gx gy h
    rcases hw : walkable gx gy with _ | _
    · rfl
    · obtain ⟨hb, _⟩ := (walkable_eq_true_iff gx gy).1 hw
      exact absurd hb h

theorem collision_probe_oob_polarity_witness :
    ((∀ d ∈ OFFSETS,
      ¬(0 ≤ ⌊(100 : ℚ) + (d.2 : ℚ) * 1⌋ ∧ ⌊(100 : ℚ) + (d.2 : ℚ) * 1⌋ < MAP_HEIGHT ∧
        0 ≤ ⌊(100 : ℚ) + (d.1 : ℚ) * 1⌋ ∧ ⌊(100 : ℚ) + (d.1 : ℚ) * 1⌋ < MAP_WIDTH)) ∧
      checkWallCollision 100 100 1 = false) ∧
    (¬((0 : ℤ) ≤ -1 ∧ (-1 : ℤ) < MAP_HEIGHT ∧ (0 : ℤ) ≤ 5 ∧ (5 : ℤ) < MAP_WIDTH) ∧
      walkable 5 (-1) = false) := by
  have h1 : ∀ d ∈ OFFSETS,
      ¬(0 ≤ ⌊(100 : ℚ) + (d.2 : ℚ) * 1⌋ ∧ ⌊(100 : ℚ) + (d.2 : ℚ) * 1⌋ < MAP_HEIGHT ∧
        0 ≤ ⌊(100 : ℚ) + (d.1 : ℚ) * 1⌋ ∧ ⌊(100 : ℚ) + (d.1 : ℚ) * 1⌋ < MAP_WIDTH) := by
    intro d hd
    fin_cases hd <;> norm_num [MAP_HEIGHT, MAP_WIDTH, MAP]
  have h2 : ¬((0 : ℤ) ≤ -1 ∧ (-1 : ℤ) < MAP_HEIGHT ∧ (0 : ℤ) ≤ 5 ∧ (5 : ℤ) < MAP_WIDTH) := by
    rintro ⟨h, _⟩
    omega
  exact ⟨⟨h1, collision_probe_oob_polarity.1 100 100 1 h1⟩,
    ⟨h2, collision_probe_oob_polarity.2 5 (-1) h2⟩⟩
